import Mathlib

/-!
Verification of the schema-validated batch ingestion pipeline and the
backup/restore serializer of the G-Data-Engineering-Challenge repository.

The development shallowly embeds the relevant Python code:
- `src/data/validator.py` (`validate_row`, `validate_dataframe`,
  `process_and_insert`),
- `src/data/backup.py` (`generate_avro_schema`, `update_backup_config`,
  `backup_table`, `restore_table`).

Machine parsing of timestamps calls `datetime.fromisoformat` from the
CPython standard library; it is modelled here after the CPython 3.11
implementation (`Lib/datetime.py`, kept in sync with the C accelerator in
`Modules/_datetimemodule.c`): the separator search, the date parser with
week-date support, the time parser and the timezone handling, the Gregorian
ordinal conversions, and the constructor range checks.  Fixed-width numeric
fields are required to be ASCII digit runs, as in the C accelerator.
-/

namespace GData

/-! ### Character and digit helpers -/

/-- Value of an ASCII digit character. -/
def digitVal (c : Char) : Nat := c.toNat - 48

/-- Character of `cs` at index `i`; a NUL sentinel stands for "past the end"
(mirroring the C accelerator's NUL-terminated scanning: every comparison
against a concrete expected character fails there). -/
def charAt (cs : List Char) (i : Nat) : Char := (cs[i]?).getD (Char.ofNat 0)

/-- Parse the fixed-width slice `cs[pos .. pos+n)` as an `n`-digit decimal
number; fails unless exactly `n` ASCII digits are present (the C
accelerator's `parse_digits`). -/
def sliceDigits (cs : List Char) (pos n : Nat) : Option Nat :=
  let s := (cs.drop pos).take n
  if s.length = n ∧ s.all Char.isDigit then
    some (s.foldl (fun a c => a * 10 + digitVal c) 0)
  else none

/-- Number of consecutive ASCII digits of `cs` starting at index `i`. -/
def countDigitsFrom (cs : List Char) (i : Nat) : Nat :=
  ((cs.drop i).takeWhile Char.isDigit).length

/-! ### Gregorian calendar arithmetic (`Lib/datetime.py` helpers) -/

/-- `_is_leap`. -/
def isLeap (year : Int) : Bool := year % 4 = 0 ∧ (year % 100 ≠ 0 ∨ year % 400 = 0)

/-- `_DAYS_IN_MONTH` (index 0 is a placeholder). -/
def daysInMonthTable : List Int := [-1, 31, 28, 31, 30, 31, 30, 31, 31, 30, 31, 30, 31]

/-- `_DAYS_BEFORE_MONTH` (index 0 is a placeholder). -/
def daysBeforeMonthTable : List Int :=
  [-1, 0, 31, 59, 90, 120, 151, 181, 212, 243, 273, 304, 334]

/-- `_days_in_month`. -/
def daysInMonth (year month : Int) : Int :=
  if month = 2 ∧ isLeap year then 29 else daysInMonthTable.getD month.toNat 0

/-- `_days_before_year`; Python floor division matches `Int.ediv` for the
positive divisors used here. -/
def daysBeforeYear (year : Int) : Int :=
  let y := year - 1
  y * 365 + y.ediv 4 - y.ediv 100 + y.ediv 400

/-- `_days_before_month`. -/
def daysBeforeMonth (year month : Int) : Int :=
  daysBeforeMonthTable.getD month.toNat 0 + (if 2 < month ∧ isLeap year then 1 else 0)

/-- `_ymd2ord`: ordinal with 01-Jan-0001 as day 1. -/
def ymd2ord (year month day : Int) : Int :=
  daysBeforeYear year + daysBeforeMonth year month + day

/-- `_DI400Y`. -/
def DI400Y : Int := 146097

/-- `_DI100Y`. -/
def DI100Y : Int := 36524

/-- `_DI4Y`. -/
def DI4Y : Int := 1461

/-- `_ord2ymd`: inverse of `ymd2ord`; `divmod` on a positive divisor is
Euclidean division. -/
def ord2ymd (n0 : Int) : Int × Int × Int :=
  let n := n0 - 1
  let n400 := n.ediv DI400Y
  let n := n.emod DI400Y
  let year := n400 * 400 + 1
  let n100 := n.ediv DI100Y
  let n := n.emod DI100Y
  let n4 := n.ediv DI4Y
  let n := n.emod DI4Y
  let n1 := n.ediv 365
  let n := n.emod 365
  let year := year + n100 * 100 + n4 * 4 + n1
  if n1 = 4 ∨ n100 = 4 then (year - 1, 12, 31)
  else
    let leapyear := n1 = 3 ∧ (n4 ≠ 24 ∨ n100 = 3)
    let month := (n + 50).ediv 32
    let preceding := daysBeforeMonthTable.getD month.toNat 0 +
      (if 2 < month ∧ leapyear then 1 else 0)
    let (month, preceding) :=
      if n < preceding then
        (month - 1, preceding - (daysInMonthTable.getD (month - 1).toNat 0 +
          (if month - 1 = 2 ∧ leapyear then 1 else 0)))
      else (month, preceding)
    let n := n - preceding
    (year, month, n + 1)

/-- `_isoweek1monday`: ordinal of the Monday starting ISO week 1. -/
def isoweek1monday (year : Int) : Int :=
  let firstday := ymd2ord year 1 1
  let firstweekday := (firstday + 6).emod 7
  let week1monday := firstday - firstweekday
  if 3 < firstweekday then week1monday + 7 else week1monday

/-- `_isoweek_to_gregorian`: ISO (year, week, weekday) to (year, month, day);
fails on the `ValueError`s the Python helper raises. -/
def isoweekToGregorian (year week day : Int) : Option (Int × Int × Int) :=
  if ¬ (1 ≤ year ∧ year ≤ 9999) then none
  else if ¬ (0 < week ∧ week < 53) then
    (if week = 53 ∧
        (let fw := (ymd2ord year 1 1).emod 7
         fw = 4 ∨ (fw = 3 ∧ isLeap year)) then
      if ¬ (0 < day ∧ day < 8) then none
      else some (ord2ymd (isoweek1monday year + (week - 1) * 7 + (day - 1)))
    else none)
  else if ¬ (0 < day ∧ day < 8) then none
  else some (ord2ymd (isoweek1monday year + (week - 1) * 7 + (day - 1)))

/-! ### `datetime.fromisoformat` (CPython 3.11) -/

/-- `_find_isoformat_datetime_separator`: index of the date/time separator
character; fails on the `ValueError`s raised there.  Callers guarantee
`7 ≤ cs.length`. -/
def findIsoSep (cs : List Char) : Option Nat :=
  let n := cs.length
  if n = 7 then some 7
  else if charAt cs 4 = '-' then
    if charAt cs 5 = 'W' then
      if n < 8 then none
      else if 8 < n ∧ charAt cs 8 = '-' then
        if n = 9 then none
        else if 10 < n ∧ (charAt cs 10).isDigit then some 8
        else some 10
      else some 8
    else some 10
  else if charAt cs 4 = 'W' then
    let idx := 7 + countDigitsFrom cs 7
    if idx < 9 then some idx
    else if idx % 2 = 0 then some 7
    else some 8
  else some 8

/-- `_parse_isoformat_date` on the date substring (week dates included);
fixed-width fields must be ASCII digit runs, as in the C accelerator.
Returns (year, month, day) before the constructor's range checks. -/
def parseIsoDate (cs : List Char) : Option (Int × Int × Int) :=
  (sliceDigits cs 0 4).bind fun year =>
  let hasSep := charAt cs 4 = '-'
  let o : Nat := if hasSep then 1 else 0
  let pos := 4 + o
  if charAt cs pos = 'W' then
    let pos := pos + 1
    (sliceDigits cs pos 2).bind fun weekno =>
    let pos := pos + 2
    if pos < cs.length then
      let dash := charAt cs pos = '-'
      if dash ≠ hasSep then none
      else
        let pos := pos + o
        (sliceDigits cs pos 1).bind fun dayno =>
        isoweekToGregorian year weekno dayno
    else isoweekToGregorian year weekno 1
  else
    (sliceDigits cs pos 2).bind fun month =>
    let pos := pos + 2
    let dash := charAt cs pos = '-'
    if dash ≠ hasSep then none
    else
      let pos := pos + o
      (sliceDigits cs pos 2).bind fun day =>
      some ((year : Int), (month : Int), (day : Int))

/-- One fixed-width time component: two digits inside the segment, followed
by the "separator" character `c` read by `c = *(p++)` — the character after
the digits inside the segment, or `after` (the character sitting at the
segment's end in the underlying buffer: the timezone sign, or NUL at the
true end of the string) when the digits finish the segment. -/
def readComp (seg : List Char) (after : Char) (pos : Nat) : Option (Nat × Char) :=
  (sliceDigits seg pos 2).map fun v =>
    (v, if pos + 2 < seg.length then charAt seg (pos + 2) else after)

/-- `_FRACTION_CORRECTION` scaling of a fraction of `toParse` digits to
microseconds. -/
def fracScale (toParse : Nat) : Nat :=
  match toParse with
  | 1 => 100000 | 2 => 10000 | 3 => 1000 | 4 => 100 | 5 => 10 | _ => 1

/-- Fractional-second part starting at `pos`: up to six digits, scaled to
microseconds; any remaining characters of the segment beyond the sixth
digit must also be digits and are discarded. -/
def parseFrac (seg : List Char) (pos : Nat) : Option Nat :=
  let rem := seg.length - pos
  let toParse := min rem 6
  (sliceDigits seg pos toParse).bind fun frac =>
  if toParse < rem ∧ ¬ ((seg.drop (pos + toParse)).all Char.isDigit) then none
  else some (frac * fracScale toParse)

/-- `parse_hh_mm_ss_ff` of the C accelerator (`Modules/_datetimemodule.c`,
CPython 3.11): parses `HH[:?MM[:?SS[{.,:}fff[fff]]]]` over the segment that
ends at the timezone position (or the true end of the string).  Separator
use must be consistent with the first separator seen; reaching the segment
end right after a component succeeds, with the flag recording whether the
last character consumed was a real character rather than the NUL terminator
(callers reject that case when no timezone follows).  Returns
(hour, minute, second, microsecond, flag). -/
def parseHmsC (seg : List Char) (after : Char) : Option (Nat × Nat × Nat × Nat × Bool) :=
  let n := seg.length
  let nul := Char.ofNat 0
  -- component 0 (hours)
  (readComp seg after 0).bind fun (hh, c0) =>
  let hasSep := c0 = ':'
  if n ≤ 3 then some (hh, 0, 0, 0, c0 ≠ nul) else
  if c0 = '.' ∨ c0 = ',' then
    (parseFrac seg 3).bind fun us => some (hh, 0, 0, us, false)
  else
  let pos1 := if hasSep then 3 else 2
  -- component 1 (minutes)
  (readComp seg after pos1).bind fun (mm, c1) =>
  if pos1 + 3 ≥ n then some (hh, mm, 0, 0, c1 ≠ nul) else
  if c1 = ':' ∧ ¬ hasSep then none else
  if c1 = '.' ∨ c1 = ',' then
    (parseFrac seg (pos1 + 3)).bind fun us => some (hh, mm, 0, us, false)
  else
  if c1 ≠ ':' ∧ hasSep then none else
  let pos2 := if hasSep then pos1 + 3 else pos1 + 2
  -- component 2 (seconds)
  (readComp seg after pos2).bind fun (ss, c2) =>
  if pos2 + 3 ≥ n then some (hh, mm, ss, 0, c2 ≠ nul) else
  if c2 = ':' ∧ ¬ hasSep then none else
  if c2 = '.' ∨ c2 = ',' ∨ c2 = ':' then
    (parseFrac seg (pos2 + 3)).bind fun us => some (hh, mm, ss, us, false)
  else
  if hasSep then none else
  (parseFrac seg (pos2 + 2)).bind fun us => some (hh, mm, ss, us, false)

/-- `parse_isoformat_time` of the C accelerator: time-of-day plus optional
timezone.  The timezone starts at the first `Z`, `+` or `-` of the segment;
a `Z` must be the last character of the string, and a signed offset is a
clean `parse_hh_mm_ss_ff` run over the rest, strictly within 24 hours
(returned in microseconds). -/
def parseIsoTime (seg : List Char) : Option (Nat × Nat × Nat × Nat × Option Int) :=
  let nul := Char.ofNat 0
  let tzIdx := seg.findIdx? (fun c => c = 'Z' || c = '+' || c = '-')
  let timestr := seg.take (tzIdx.getD seg.length)
  let after := match tzIdx with
    | none => nul
    | some i => charAt seg i
  (parseHmsC timestr after).bind fun (hh, mm, ss, us, junk) =>
  match tzIdx with
  | none => if junk then none else some (hh, mm, ss, us, none)
  | some i =>
    if charAt seg i = 'Z' then
      if i + 1 = seg.length then some (hh, mm, ss, us, some 0) else none
    else
      let sign : Int := if charAt seg i = '-' then -1 else 1
      (parseHmsC (seg.drop (i + 1)) nul).bind fun (th, tm, ts, tus, tzjunk) =>
      if tzjunk then none
      else
        -- a whole-second offset of zero yields the UTC singleton, dropping
        -- any fractional part of the offset
        let secOff : Int := sign * ((th * 3600 + tm * 60 + ts : Nat) : Int)
        if secOff = 0 then some (hh, mm, ss, us, some 0)
        else
          let off : Int := secOff * 1000000 + sign * (tus : Int)
          if off.natAbs < 86400000000 then some (hh, mm, ss, us, some off)
          else none

/-- Result of a successful `datetime.fromisoformat`: the constructor
arguments (year, month, day, hour, minute, second, microsecond, and the
timezone offset in microseconds when present). -/
structure PyDateTime where
  year : Int
  month : Int
  day : Int
  hour : Nat
  minute : Nat
  second : Nat
  microsecond : Nat
  tzOffset : Option Int
deriving DecidableEq

/-- `_check_date_fields` of the `datetime` constructor. -/
def checkDateFields (year month day : Int) : Bool :=
  1 ≤ year ∧ year ≤ 9999 ∧ 1 ≤ month ∧ month ≤ 12 ∧ 1 ≤ day ∧ day ≤ daysInMonth year month

/-- `_check_time_fields` of the `datetime` constructor. -/
def checkTimeFields (hour minute second microsecond : Nat) : Bool :=
  hour ≤ 23 ∧ minute ≤ 59 ∧ second ≤ 59 ∧ microsecond ≤ 999999

/-- `datetime.fromisoformat` (CPython 3.11): split at the separator, parse
the date and optional time parts, then apply the constructor range checks.
Returns `none` exactly where the library raises `ValueError`. -/
def fromisoformat (s : String) : Option PyDateTime :=
  let cs := s.data
  if cs.length < 7 then none else
  (findIsoSep cs).bind fun sep =>
  (parseIsoDate (cs.take sep)).bind fun (year, month, day) =>
  (if cs.length ≤ sep then some (0, 0, 0, 0, none)
   else parseIsoTime (cs.drop (sep + 1))).bind fun (hh, mm, ss, us, tz) =>
  if checkDateFields year month day ∧ checkTimeFields hh mm ss us then
    some ⟨year, month, day, hh, mm, ss, us, tz⟩
  else none

/-! ### Row and batch validation (`src/data/validator.py`) -/

/-- A scalar cell value as pandas materialises it here: integers and
strings. -/
inductive Value where
  | int (z : Int)
  | str (s : String)
deriving DecidableEq

/-- A record: an association of column names to values, `none` standing for
a null/NaN entry. -/
abbrev Row : Type := List (String × Option Value)

/-- `row.get(col)`: the value under `col`, a null when the row has no such
column (so an absent column and a null value coincide, exactly as both make
`pd.isna` true downstream). -/
def Row.get (r : Row) (col : String) : Option Value :=
  match List.lookup col r with
  | some v => v
  | none => none

/-- Row-level defect kinds recorded by `validate_row` (the Python code
renders them as the message strings "Field '<col>' is empty or null" and
"Invalid 'datetime' format"). -/
inductive Defect where
  | missingOrEmpty (column : String)
  | invalidTimestamp
deriving DecidableEq

/-- ASCII whitespace as stripped by `str.strip()` (this development only
needs the ASCII subset of Python's whitespace). -/
def isPySpace (c : Char) : Bool :=
  c = ' ' ∨ c = '\t' ∨ c = '\n' ∨ c = '\r' ∨ c = Char.ofNat 11 ∨ c = Char.ofNat 12

/-- `value.strip() == ""`: every character is whitespace (an empty string
included). -/
def stripIsEmpty (s : String) : Bool := s.data.all isPySpace

/-- `pd.isna(value) or (isinstance(value, str) and value.strip() == "")`. -/
def isMissingOrBlank (v : Option Value) : Bool :=
  match v with
  | none => true
  | some (.str s) => stripIsEmpty s
  | some _ => false

/-- `value.replace("Z", "+00:00")`: the pattern is a single character, so
every occurrence is replaced independently. -/
def replaceZ (s : String) : String :=
  ⟨(s.data.map fun c => if c = 'Z' then "+00:00".data else [c]).flatten⟩

/-- `validate_row`: for each expected column, first the missing/blank check,
then — when the column is named `datetime` and carries a non-null string —
the ISO-8601 parse check `datetime.fromisoformat(value.replace("Z",
"+00:00"))`, appending a defect on `ValueError`.  Defects accumulate in
iteration order. -/
def validate_row (row : Row) (expected_columns : List String) : List Defect :=
  match expected_columns with
  | [] => []
  | col :: rest =>
    let value := row.get col
    (if isMissingOrBlank value then [Defect.missingOrEmpty col] else []) ++
    (match value with
     | some (.str s) =>
       if col = "datetime" ∧ (fromisoformat (replaceZ s)).isNone then
         [Defect.invalidTimestamp]
       else []
     | _ => []) ++
    validate_row row rest

/-- A quarantine entry of the error log: table name, originating row index,
the full original record (`row.to_dict()`), and the row's defects. -/
structure QuarantineEntry where
  table : String
  row_index : Nat
  data : Row
  errors : List Defect
deriving DecidableEq

/-- The single validation pass of `validate_dataframe`: iterate the frame in
original order, appending a quarantine entry (`error_log`) for every row
with defects and the index label (`valid_indices`) for every clean row. -/
def validation_scan (df : List (Nat × Row)) (expected_columns : List String)
    (table_name : String) : List QuarantineEntry × List Nat :=
  match df with
  | [] => ([], [])
  | (idx, row) :: rest =>
    let tail := validation_scan rest expected_columns table_name
    let rowErrors := validate_row row expected_columns
    if rowErrors = [] then (tail.1, idx :: tail.2)
    else ({ table := table_name, row_index := idx, data := row,
            errors := rowErrors } :: tail.1, tail.2)

/-- `df.loc[valid_indices]`: label-based selection in the order of the
requested labels (the frames of this pipeline carry unique labels). -/
def df_loc (df : List (Nat × Row)) (idxs : List Nat) : List (Nat × Row) :=
  idxs.filterMap fun i => (List.lookup i df).map fun r => (i, r)

/-- `validate_dataframe`: the accepted sub-frame.  (The quarantine entries
are additionally serialised to a timestamped error-log file; that effect is
made explicit in `process_and_insert`.) -/
def validate_dataframe (df : List (Nat × Row)) (expected_columns : List String)
    (table_name : String) : List (Nat × Row) :=
  df_loc df (validation_scan df expected_columns table_name).2

/-- Outcome of an insertion call. -/
inductive InsertOutcome where
  | noValidRecords
  | inserted (n : Nat)
deriving DecidableEq

/-- Errors that can escape `process_and_insert`. -/
inductive PipelineError where
  | quarantineLogWriteFailure
  | storageFailure
deriving DecidableEq

/-- Result of `process_and_insert`: a normal return, or an uncaught
exception. -/
inductive PIResult where
  | ok (outcome : InsertOutcome)
  | error (e : PipelineError)
deriving DecidableEq

/-- `process_and_insert`, with its two effects made explicit.  `logWriteOk`:
whether writing the quarantine-log file succeeds — the `open`/`json.dump`
in `validate_dataframe` runs only when the error log is non-empty and has
no exception handler, so a failed write raises out of the whole call before
any insertion.  `storeOk`: whether the `engine.begin()` transaction commits
— the SQLAlchemy context manager commits the whole `to_sql` append on
success and rolls everything back on failure, so the store (the destination
table's row sequence) either receives the entire accepted batch or is left
unchanged. -/
def process_and_insert (df : List (Nat × Row)) (expected_columns : List String)
    (table_name : String) (store : List Row) (logWriteOk storeOk : Bool) :
    List Row × PIResult :=
  let errorLog := (validation_scan df expected_columns table_name).1
  if ¬ errorLog.isEmpty ∧ ¬ logWriteOk then
    (store, .error .quarantineLogWriteFailure)
  else
    let dfValid := validate_dataframe df expected_columns table_name
    if dfValid.isEmpty then (store, .ok .noValidRecords)
    else if storeOk then
      (store ++ dfValid.map Prod.snd, .ok (.inserted dfValid.length))
    else (store, .error .storageFailure)

/-! ### Backup and restore (`src/data/backup.py`)

The world model: a configuration (the parts of `config.yaml` this module
reads and writes), a disk of AVRO snapshot files keyed by path, and a
relational store of tables keyed by name.  The external store is modelled
per the collaborator contract: a table created by `restore_table` has
text-typed columns, so values appended into it are kept in their text
representation. -/

/-- pandas column dtypes occurring in this pipeline: `int64` for integer
columns, `object` for text columns, and the generic text type of a table
created by `restore_table` (`sqlalchemy.String`). -/
inductive Dtype where
  | int64
  | object
  | text
deriving DecidableEq

/-- `str(value)` for the values of this pipeline. -/
def valueStr (v : Value) : String :=
  match v with
  | .int z => toString z
  | .str s => s

/-- A table materialised from the store: named, typed columns and rows of
cells (a cell is `none` for SQL NULL / NaN). -/
structure DbTable where
  cols : List (String × Dtype)
  rows : List (List (Option Value))
deriving DecidableEq

/-- An AVRO snapshot file: the embedded field schema and the encoded record
stream (fastavro decoding returns the records exactly as written). -/
structure AvroFile where
  schema : List (String × String)
  records : List (List (Option Value))
deriving DecidableEq

/-- The dtype → AVRO type mapping of `generate_avro_schema`. -/
def avroTypeOf (d : Dtype) : String :=
  match d with
  | .int64 => "long"
  | .object => "string"
  | .text => "string"

/-- `generate_avro_schema`: one field per column, typed via `avroTypeOf`. -/
def generate_avro_schema (t : DbTable) : List (String × String) :=
  t.cols.map fun c => (c.1, avroTypeOf c.2)

/-- The data-cleaning step of `backup_table`: for every `object`-typed
column, and additionally for the column named `datetime`, nulls become the
empty string and every value is forced to a string (`fillna("")` followed
by `astype(str)`); other columns are untouched. -/
def cleanCell (d : Dtype) (name : String) (c : Option Value) : Option Value :=
  if d = .object ∨ name = "datetime" then
    some (.str (match c with
      | none => ""
      | some v => valueStr v))
  else c

/-- Column dtypes after the cleaning step (cleaned columns become
`object`). -/
def cleanDtype (d : Dtype) (name : String) : Dtype :=
  if d = .object ∨ name = "datetime" then .object else d

/-- The whole cleaned table. -/
def cleanTable (t : DbTable) : DbTable :=
  { cols := t.cols.map fun c => (c.1, cleanDtype c.2 c.1),
    rows := t.rows.map fun r => (t.cols.zip r).map fun p => cleanCell p.1.2 p.1.1 p.2 }

/-- The slice of `config.yaml` that `backup.py` reads and writes: the backup
directory, the `backup.files` pointer map, and the per-table column lists of
the `csv` section. -/
structure SysConfig where
  backupDir : String
  backupFiles : List (String × String)
  csvColumns : List (String × List String)
deriving DecidableEq

/-- The world state threaded through backup and restore: configuration,
snapshot files on disk (keyed by path), and the store's tables (keyed by
name). -/
structure World where
  config : SysConfig
  disk : List (String × AvroFile)
  db : List (String × DbTable)
deriving DecidableEq

/-- Update of one key of an association map (Python `dict` assignment):
replaces the first binding of the key, or appends a fresh binding at the
end. -/
def setAssoc {α : Type} [BEq α] {β : Type} (k : α) (v : β) :
    List (α × β) → List (α × β)
  | [] => [(k, v)]
  | (k', v') :: rest =>
    if k' == k then (k, v) :: rest else (k', v') :: setAssoc k v rest

/-- `update_backup_config` at the world level: sets
`backup.files[table_name] = backup_file` and persists the configuration
(the full-YAML frame behaviour of this function is verified separately on
`Conf.update_backup_config`). -/
def updateBackupPointer (table_name backup_file : String) (c : SysConfig) : SysConfig :=
  { c with backupFiles := setAssoc table_name backup_file c.backupFiles }

/-- `backup_table`: reads the full table from the store, cleans text
columns, writes the schema and all records to
`{backup_dir}/{table_name}.avro`, and records that path in
`backup.files[table_name]`.  `none` when the table is missing from the
store (the `SELECT` raises). -/
def backup_table (table_name : String) (w : World) : Option World :=
  match List.lookup table_name w.db with
  | none => none
  | some t =>
    let cleaned := cleanTable t
    let file : AvroFile := { schema := generate_avro_schema cleaned,
                             records := cleaned.rows }
    let path := w.config.backupDir ++ "/" ++ table_name ++ ".avro"
    some { w with disk := setAssoc path file w.disk,
                  config := updateBackupPointer table_name path w.config }

/-- Outcomes of `restore_table` (reported via logging in the source; the
sweep in `main` continues with the next table in every case). -/
inductive RestoreOutcome where
  | noBackupFound
  | emptyBackup
  | noColumnsDefined
  | restored (n : Nat)
deriving DecidableEq

/-- A value appended into a text-typed column is stored in its text
representation. -/
def textifyCell (c : Option Value) : Option Value :=
  c.map fun v => .str (valueStr v)

/-- `restore_table`: looks up `backup.files[table_name]`; with no pointer or
no file on disk, reports `noBackupFound` and does nothing.  An empty record
stream reports `emptyBackup` and does nothing.  Otherwise, if the
destination table does not exist it is created with one generic-text column
per catalog (`csv.<table>.columns`) entry — with no catalog columns the
restore aborts —, and all decoded records are appended in one
transaction. -/
def restore_table (table_name : String) (w : World) : RestoreOutcome × World :=
  match List.lookup table_name w.config.backupFiles with
  | none => (.noBackupFound, w)
  | some path =>
    match List.lookup path w.disk with
    | none => (.noBackupFound, w)
    | some file =>
      if file.records.isEmpty then (.emptyBackup, w)
      else
        match List.lookup table_name w.db with
        | some t =>
          let t' : DbTable := { t with rows := t.rows ++ file.records }
          (.restored file.records.length,
           { w with db := setAssoc table_name t' w.db })
        | none =>
          match List.lookup table_name w.config.csvColumns with
          | none => (.noColumnsDefined, w)
          | some cols =>
            if cols.isEmpty then (.noColumnsDefined, w)
            else
              let newT : DbTable :=
                { cols := cols.map fun n => (n, Dtype.text),
                  rows := file.records.map fun r => r.map textifyCell }
              (.restored file.records.length,
               { w with db := setAssoc table_name newT w.db })

/-! ### `update_backup_config` on the full YAML document

`config.yaml` is loaded as a nested dictionary; `update_backup_config`
mutates `config["backup"]["files"][table_name]` (creating the `backup` and
`files` dictionaries when absent) and dumps the whole document back.  The
frame claim is about every other key of the document, so here the document
is modelled in full. -/

/-- A YAML document node. -/
inductive Yaml where
  | scalar (s : String)
  | seq (items : List Yaml)
  | map (entries : List (String × Yaml))

namespace Conf

/-- `update_backup_config` (src/data/backup.py): ensure `config["backup"]`
and `config["backup"]["files"]` are dictionaries (a present non-dictionary
value makes the Python function raise a `TypeError` before any write:
modelled as `none`), set `files[table_name] = backup_file`, and write the
resulting document back. -/
def update_backup_config (table_name backup_file : String)
    (config : List (String × Yaml)) : Option (List (String × Yaml)) :=
  let backupMap : Option (List (String × Yaml)) :=
    match List.lookup "backup" config with
    | none => some []
    | some (.map m) => some m
    | some _ => none
  backupMap.bind fun m =>
  let filesMap : Option (List (String × Yaml)) :=
    match List.lookup "files" m with
    | none => some []
    | some (.map f) => some f
    | some _ => none
  filesMap.bind fun f =>
  let f' := setAssoc table_name (Yaml.scalar backup_file) f
  let m' := setAssoc "files" (Yaml.map f') m
  some (setAssoc "backup" (Yaml.map m') config)

/-- The entries of a key when it holds a dictionary (`none` otherwise). -/
def subMap (config : List (String × Yaml)) (k : String) :
    Option (List (String × Yaml)) :=
  match List.lookup k config with
  | some (.map m) => some m
  | _ => none

/-- Lookup of `config[k1][k2]` through `subMap`. -/
def lookup2 (config : List (String × Yaml)) (k1 k2 : String) : Option Yaml :=
  (subMap config k1).bind fun m => List.lookup k2 m

/-- Lookup of `config[k1][k2][k3]`. -/
def lookup3 (config : List (String × Yaml)) (k1 k2 k3 : String) : Option Yaml :=
  (subMap config k1).bind fun m =>
  (subMap m k2).bind fun m2 => List.lookup k3 m2

end Conf

/-! ### Typing discipline and rendering helpers for the round-trip claim -/

/-- Cell typing of a stored source table as pandas materialises it here:
`int64` columns hold integers (a pandas `int64` column admits no null),
`object` columns hold strings or nulls. -/
def cellTypedB (d : Dtype) (c : Option Value) : Bool :=
  match d, c with
  | .int64, some (.int _) => true
  | .object, none => true
  | .object, some (.str _) => true
  | _, _ => false

/-- A table is well typed when every row matches the column list in length
and every cell matches its column's dtype. -/
def wellTypedB (t : DbTable) : Bool :=
  t.rows.all fun r => r.length == t.cols.length &&
    ((t.cols.zip r).all fun p => cellTypedB p.1.2 p.2)

/-- The row set of an optional stored table rendered cell-by-cell as
strings (`none` marks SQL NULL; a missing table has the empty row set). -/
def storedStrings (t? : Option DbTable) : List (List (Option String)) :=
  match t? with
  | none => []
  | some t => t.rows.map fun r => r.map fun c => c.map valueStr

/-! ### Sample data for witnesses and counterexamples -/

/-- A three-row batch: two clean rows around one row with a null `name`. -/
def sampleDf : List (Nat × Row) :=
  [(0, [("name", some (Value.str "Ada"))]),
   (1, [("name", none)]),
   (2, [("name", some (Value.str "Grace"))])]

/-- A two-row batch: a row with a null `name` followed by a clean row. -/
def badBatch : List (Nat × Row) :=
  [(0, [("name", (none : Option Value))]),
   (1, [("name", some (Value.str "Ada"))])]

/-- A world with empty configuration, disk and store. -/
def emptyWorld : World :=
  { config := { backupDir := "data/backup", backupFiles := [], csvColumns := [] },
    disk := [], db := [] }

/-- A small employees table with an integer column, a nullable text column
and a text `datetime` column. -/
def sampleTable : DbTable :=
  { cols := [("id", Dtype.int64), ("name", Dtype.object), ("datetime", Dtype.object)],
    rows := [[some (Value.int 1), some (Value.str "Ada"),
              some (Value.str "2021-07-15T10:00:00Z")],
             [some (Value.int 2), none, none]] }

/-- A world holding `sampleTable` under the `hired_employees` name. -/
def sampleWorld : World :=
  { config := { backupDir := "data/backup", backupFiles := [],
                csvColumns := [("hired_employees", ["id", "name", "datetime"])] },
    disk := [], db := [("hired_employees", sampleTable)] }

/-- A small configuration document with database settings, csv column
lists, and one existing backup pointer. -/
def sampleYaml : List (String × Yaml) :=
  [("database", Yaml.map [("host", Yaml.scalar "localhost")]),
   ("csv", Yaml.map [("jobs", Yaml.seq [Yaml.scalar "id", Yaml.scalar "job"])]),
   ("backup", Yaml.map
     [("backup_dir", Yaml.scalar "data/backup"),
      ("files", Yaml.map
        [("departments", Yaml.scalar "data/backup/departments.avro")])])]

/-! ### Helper lemmas -/

theorem lookup_setAssoc_self {α β : Type} [BEq α] [LawfulBEq α] (k : α) (v : β)
    (l : List (α × β)) : List.lookup k (setAssoc k v l) = some v := by
  induction l with
  | nil => simp [setAssoc, List.lookup_cons]
  | cons hd t ih =>
    obtain ⟨a, b⟩ := hd
    by_cases hk : a = k
    · subst hk
      simp [setAssoc, List.lookup_cons]
    · have hne : (a == k) = false := beq_false_of_ne hk
      have hne' : (k == a) = false := beq_false_of_ne (Ne.symm hk)
      simp [setAssoc, hne, List.lookup_cons, hne', ih]

theorem lookup_setAssoc_ne {α β : Type} [BEq α] [LawfulBEq α] (k k' : α) (v : β)
    (l : List (α × β)) (h : k' ≠ k) :
    List.lookup k' (setAssoc k v l) = List.lookup k' l := by
  induction l with
  | nil => simp [setAssoc, List.lookup_cons, beq_false_of_ne h]
  | cons hd t ih =>
    obtain ⟨a, b⟩ := hd
    by_cases hk : a = k
    · subst hk
      simp [setAssoc, List.lookup_cons, beq_false_of_ne h]
    · have hne : (a == k) = false := beq_false_of_ne hk
      simp [setAssoc, hne, List.lookup_cons, ih]

/-- The quarantine entries of the scan are exactly the defective rows, in
original order, with table name, row index, full record and defect list. -/
theorem validation_scan_fst (df : List (Nat × Row)) (cols : List String)
    (tbl : String) :
    (validation_scan df cols tbl).1 =
      (df.filter fun p => !(validate_row p.2 cols).isEmpty).map
        fun p => { table := tbl, row_index := p.1, data := p.2,
                   errors := validate_row p.2 cols } := by
  induction df with
  | nil => simp [validation_scan]
  | cons h t ih =>
    by_cases he : validate_row h.2 cols = []
    · have hbe : (validate_row h.2 cols).isEmpty = true := by
        simp [List.isEmpty_iff, he]
      simp [validation_scan, he, ih, List.filter_cons, hbe]
    · have hbe : (validate_row h.2 cols).isEmpty = false := by
        simp [List.isEmpty_iff, he]
      simp [validation_scan, he, ih, List.filter_cons, hbe]

/-- The surviving index labels of the scan are those of the defect-free
rows, in original order. -/
theorem validation_scan_snd (df : List (Nat × Row)) (cols : List String)
    (tbl : String) :
    (validation_scan df cols tbl).2 =
      (df.filter fun p => (validate_row p.2 cols).isEmpty).map Prod.fst := by
  induction df with
  | nil => simp [validation_scan]
  | cons h t ih =>
    by_cases he : validate_row h.2 cols = []
    · have hbe : (validate_row h.2 cols).isEmpty = true := by
        simp [List.isEmpty_iff, he]
      simp [validation_scan, he, ih, List.filter_cons, hbe]
    · have hbe : (validate_row h.2 cols).isEmpty = false := by
        simp [List.isEmpty_iff, he]
      simp [validation_scan, he, ih, List.filter_cons, hbe]

theorem df_loc_cons_of_not_mem (i : Nat) (r : Row) (df : List (Nat × Row))
    (idxs : List Nat) (h : i ∉ idxs) :
    df_loc ((i, r) :: df) idxs = df_loc df idxs := by
  induction idxs with
  | nil => simp [df_loc]
  | cons j t ih =>
    have hji : j ≠ i := fun he => h (he ▸ List.mem_cons_self j t)
    have ht : i ∉ t := fun hm => h (List.mem_cons_of_mem j hm)
    have hlk : List.lookup j ((i, r) :: df) = List.lookup j df := by
      rw [List.lookup_cons]
      simp [beq_false_of_ne hji]
    simp only [df_loc] at ih ⊢
    rw [List.filterMap_cons, List.filterMap_cons, hlk, ih ht]

/-- Label-based selection recovers the filtered sub-frame when labels are
unique. -/
theorem df_loc_filter (df : List (Nat × Row)) (c : Nat × Row → Bool)
    (h : (df.map Prod.fst).Nodup) :
    df_loc df ((df.filter c).map Prod.fst) = df.filter c := by
  induction df with
  | nil => simp [df_loc]
  | cons hd t ih =>
    obtain ⟨i, r⟩ := hd
    have hnd : (t.map Prod.fst).Nodup := (List.nodup_cons.mp (by simpa using h)).2
    have hni : i ∉ t.map Prod.fst := (List.nodup_cons.mp (by simpa using h)).1
    have hsub : i ∉ (t.filter c).map Prod.fst := fun hm => hni (by
      rcases List.mem_map.mp hm with ⟨p, hp, he⟩
      exact he ▸ List.mem_map_of_mem Prod.fst (List.mem_of_mem_filter hp))
    by_cases hc : c (i, r)
    · rw [List.filter_cons_of_pos hc, List.map_cons]
      have head : df_loc ((i, r) :: t) (i :: (t.filter c).map Prod.fst)
          = (i, r) :: df_loc ((i, r) :: t) ((t.filter c).map Prod.fst) := by
        have h1 : List.lookup i ((i, r) :: t) = some r := by
          rw [List.lookup_cons]; simp
        simp only [df_loc, List.filterMap_cons, h1, Option.map_some']
      rw [head, df_loc_cons_of_not_mem i r t _ hsub, ih hnd]
    · rw [List.filter_cons_of_neg hc]
      exact (df_loc_cons_of_not_mem i r t _ hsub).trans (ih hnd)

/-- With unique index labels, the accepted sub-frame is the in-order filter
of the defect-free rows. -/
theorem validate_dataframe_eq_filter (df : List (Nat × Row)) (cols : List String)
    (tbl : String) (h : (df.map Prod.fst).Nodup) :
    validate_dataframe df cols tbl =
      df.filter fun p => (validate_row p.2 cols).isEmpty := by
  rw [validate_dataframe, validation_scan_snd]
  exact df_loc_filter df _ h

/-- A blank or null value under an expected column always contributes its
`MissingOrEmpty` defect. -/
theorem validate_row_mem_missingOrEmpty (row : Row) (cols : List String)
    (col : String) (hmem : col ∈ cols)
    (hblank : isMissingOrBlank (Row.get row col) = true) :
    Defect.missingOrEmpty col ∈ validate_row row cols := by
  induction cols with
  | nil => cases hmem
  | cons c rest ih =>
    rcases List.mem_cons.mp hmem with hc | hc
    · subst hc
      unfold validate_row
      simp [hblank]
    · exact List.mem_append_right _ (ih hc)

/-- A `datetime` column holding a non-null string that fails the parse
always contributes an `InvalidTimestamp` defect. -/
theorem validate_row_mem_invalidTimestamp (row : Row) (cols : List String)
    (s : String) (hmem : "datetime" ∈ cols)
    (hval : Row.get row "datetime" = some (Value.str s))
    (hfail : fromisoformat (replaceZ s) = none) :
    Defect.invalidTimestamp ∈ validate_row row cols := by
  induction cols with
  | nil => cases hmem
  | cons c rest ih =>
    rcases List.mem_cons.mp hmem with hc | hc
    · subst hc
      unfold validate_row
      refine List.mem_append_left _ (List.mem_append_right _ ?_)
      simp [hval, hfail, Option.isNone_iff_eq_none]
    · exact List.mem_append_right _ (ih hc)

/-- Conversely, an `InvalidTimestamp` defect can only arise from the
`datetime` column holding a non-null string whose parse fails. -/
theorem invalidTimestamp_mem_elim (row : Row) (cols : List String)
    (h : Defect.invalidTimestamp ∈ validate_row row cols) :
    ∃ s, Row.get row "datetime" = some (Value.str s) ∧
      fromisoformat (replaceZ s) = none := by
  induction cols with
  | nil => cases h
  | cons c rest ih =>
    unfold validate_row at h
    rcases List.mem_append.mp h with h1 | h2
    · rcases List.mem_append.mp h1 with ha | hb
      · by_cases hc : isMissingOrBlank (Row.get row c) = true
        · simp [hc] at ha
        · simp [hc] at ha
      · rcases hv : Row.get row c with _ | v
        · rw [hv] at hb
          cases hb
        · rcases v with z | s
          · rw [hv] at hb
            cases hb
          · rw [hv] at hb
            have hb' : Defect.invalidTimestamp ∈
                (if c = "datetime" ∧ (fromisoformat (replaceZ s)).isNone = true
                 then [Defect.invalidTimestamp] else []) := hb
            by_cases hcond : c = "datetime" ∧ (fromisoformat (replaceZ s)).isNone = true
            · refine ⟨s, ?_, ?_⟩
              · rw [← hcond.1]; exact hv
              · simpa [Option.isNone_iff_eq_none] using hcond.2
            · rw [if_neg hcond] at hb'
              cases hb'
    · exact ih h2

/-- `isPySpace` characters are not ASCII digits and none of them is `Z`. -/
theorem isPySpace_not_digit_ne_Z (c : Char) (h : isPySpace c = true) :
    Char.isDigit c = false ∧ c ≠ 'Z' := by
  rcases (by simpa [isPySpace] using h :
      c = ' ' ∨ c = '\t' ∨ c = '\n' ∨ c = '\r' ∨
        c = Char.ofNat 11 ∨ c = Char.ofNat 12) with h | h | h | h | h | h <;>
    subst h <;> exact ⟨by decide, by decide⟩

/-- Replacing `Z` in a string with no `Z` is the identity. -/
theorem replaceZ_of_no_Z (s : String) (h : ∀ c ∈ s.data, c ≠ 'Z') :
    replaceZ s = s := by
  rcases s with ⟨data⟩
  unfold replaceZ
  congr 1
  induction data with
  | nil => rfl
  | cons c t ih =>
    have hc : c ≠ 'Z' := h c (List.mem_cons_self c t)
    have ht : ∀ c ∈ t, c ≠ 'Z' := fun x hx => h x (List.mem_cons_of_mem c hx)
    simp only [List.map_cons, List.flatten_cons, if_neg hc]
    rw [ih ht]
    rfl

/-- A string of whitespace only never parses: the four leading year digits
demanded by the date parser cannot be whitespace. -/
theorem fromisoformat_all_space (s : String) (h : s.data.all isPySpace = true) :
    fromisoformat s = none := by
  have hdate : ∀ k, parseIsoDate (s.data.take k) = none := by
    intro k
    have hslice : sliceDigits (s.data.take k) 0 4 = none := by
      unfold sliceDigits
      have hcond : ¬ (((s.data.take k).drop 0).take 4).length = 4 ∨
          ¬ ((((s.data.take k).drop 0).take 4).all Char.isDigit = true) := by
        by_cases h4 : (((s.data.take k).drop 0).take 4).length = 4
        · right
          intro hall
          have hne : ((s.data.take k).drop 0).take 4 ≠ [] := by
            intro hnil
            rw [hnil] at h4
            cases h4
          rcases List.exists_mem_of_ne_nil _ hne with ⟨c, hcm⟩
          have hcs : c ∈ s.data :=
            List.mem_of_mem_take (List.mem_of_mem_drop (List.mem_of_mem_take hcm))
          have hsp : isPySpace c = true := by
            exact (List.all_eq_true.mp h) c hcs
          have hdig : Char.isDigit c = true := (List.all_eq_true.mp hall) c hcm
          rw [(isPySpace_not_digit_ne_Z c hsp).1] at hdig
          cases hdig
        · exact Or.inl h4
      rcases hcond with hc | hc
      · rw [if_neg (fun hx => hc hx.1)]
      · rw [if_neg (fun hx => hc hx.2)]
    unfold parseIsoDate
    rw [hslice]
    rfl
  unfold fromisoformat
  by_cases hlen : s.data.length < 7
  · rw [if_pos hlen]
  · rw [if_neg hlen]
    cases hsep : findIsoSep s.data with
    | none => rfl
    | some sep =>
      simp only [Option.bind_some, Option.some_bind]
      rw [hdate sep]
      rfl

/-! ### Claim theorems -/

/-- C1: `validate_dataframe` partitions a batch in a single pass in original
order: the accepted sub-frame is exactly the in-order defect-free rows (so
every accepted row has zero defects and relative order is preserved), and
the quarantine log holds exactly the defective rows, in order, each entry
carrying the table name, the row index, the original record and its defect
list. -/
theorem validate_dataframe_partition (df : List (Nat × Row)) (cols : List String)
    (tbl : String) (h : (df.map Prod.fst).Nodup) :
    validate_dataframe df cols tbl =
        (df.filter fun p => (validate_row p.2 cols).isEmpty)
    ∧ (validation_scan df cols tbl).1 =
        ((df.filter fun p => !(validate_row p.2 cols).isEmpty).map
          fun p => { table := tbl, row_index := p.1, data := p.2,
                     errors := validate_row p.2 cols })
    ∧ ∀ p ∈ validate_dataframe df cols tbl, validate_row p.2 cols = [] := by
  refine ⟨validate_dataframe_eq_filter df cols tbl h,
    validation_scan_fst df cols tbl, fun p hp => ?_⟩
  rw [validate_dataframe_eq_filter df cols tbl h] at hp
  simpa [List.isEmpty_iff] using (List.mem_filter.mp hp).2

/-- Witness for C1 at a concrete three-row batch. -/
theorem validate_dataframe_partition_witness :
    validate_dataframe sampleDf ["name"] "hired_employees" =
        (sampleDf.filter fun p => (validate_row p.2 ["name"]).isEmpty)
    ∧ (validation_scan sampleDf ["name"] "hired_employees").1 =
        ((sampleDf.filter fun p => !(validate_row p.2 ["name"]).isEmpty).map
          fun p => { table := "hired_employees", row_index := p.1, data := p.2,
                     errors := validate_row p.2 ["name"] })
    ∧ ∀ p ∈ validate_dataframe sampleDf ["name"] "hired_employees",
        validate_row p.2 ["name"] = [] :=
  validate_dataframe_partition sampleDf ["name"] "hired_employees" (by decide)

/-- C5: a missing, null/absent, or blank value in an expected column yields
a `MissingOrEmpty` defect naming that column, and such a record is never in
the accepted sub-frame of any batch. -/
theorem validate_row_missing_excludes (row : Row) (cols : List String)
    (col : String) (hmem : col ∈ cols)
    (hblank : isMissingOrBlank (Row.get row col) = true) :
    Defect.missingOrEmpty col ∈ validate_row row cols
    ∧ ∀ (df : List (Nat × Row)) (tbl : String) (idx : Nat),
        (df.map Prod.fst).Nodup → (idx, row) ∉ validate_dataframe df cols tbl := by
  have hm : Defect.missingOrEmpty col ∈ validate_row row cols :=
    validate_row_mem_missingOrEmpty row cols col hmem hblank
  refine ⟨hm, fun df tbl idx hnd hp => ?_⟩
  rw [validate_dataframe_eq_filter df cols tbl hnd] at hp
  have hempty := (List.mem_filter.mp hp).2
  have : validate_row row cols = [] := by simpa [List.isEmpty_iff] using hempty
  exact List.ne_nil_of_mem hm this

/-- Witness for C5: a null `name` in a concrete row and batch. -/
theorem validate_row_missing_excludes_witness :
    Defect.missingOrEmpty "name" ∈ validate_row [("name", none)] ["name"]
    ∧ ∀ (df : List (Nat × Row)) (tbl : String) (idx : Nat),
        (df.map Prod.fst).Nodup →
        (idx, [("name", none)]) ∉ validate_dataframe df ["name"] tbl :=
  validate_row_missing_excludes [("name", none)] ["name"] "name"
    (by decide) (by decide)

/-- C3 counterexample: with a batch holding one defective and one accepted
row, a quarantine-log write failure escalates out of `process_and_insert`
(no exception handler guards the `open`/`json.dump`), and the accepted row
is NOT inserted: the store stays empty and the call errors, even though the
accepted sub-batch is non-empty. -/
theorem quarantine_write_failure_counterexample :
    process_and_insert badBatch ["name"] "hired_employees" [] false true
      = ([], PIResult.error PipelineError.quarantineLogWriteFailure)
    ∧ validate_dataframe badBatch ["name"] "hired_employees"
      = [(1, [("name", some (Value.str "Ada"))])] := by
  exact ⟨by decide, by decide⟩

/-- C3 (amended): a failed quarantine-log write propagates as an error and
aborts the batch before insertion — the store is unchanged and no accepted
row is persisted. -/
theorem quarantine_write_failure_aborts (df : List (Nat × Row))
    (cols : List String) (tbl : String) (store : List Row) (storeOk : Bool)
    (h : (validation_scan df cols tbl).1 ≠ []) :
    process_and_insert df cols tbl store false storeOk
      = (store, PIResult.error PipelineError.quarantineLogWriteFailure) := by
  unfold process_and_insert
  have hbe : (validation_scan df cols tbl).1.isEmpty = false := by
    simp [List.isEmpty_iff, h]
  simp [hbe]

/-- Witness for the amended C3 at the concrete batch. -/
theorem quarantine_write_failure_aborts_witness :
    (validation_scan badBatch ["name"] "hired_employees").1 ≠ []
    ∧ process_and_insert badBatch ["name"] "hired_employees" [] false true
      = ([], PIResult.error PipelineError.quarantineLogWriteFailure) :=
  ⟨by decide,
   quarantine_write_failure_aborts badBatch ["name"] "hired_employees" [] true
     (by decide)⟩

/-- C6: a non-empty accepted batch is inserted inside one transaction scoped
to the call: either the transaction commits and the store receives every
accepted row (in order, appended atomically), or it fails and the store is
exactly as before — no subset of the batch is ever visible. -/
theorem insert_batch_atomic (df : List (Nat × Row)) (cols : List String)
    (tbl : String) (store : List Row) (logOk storeOk : Bool)
    (hlog : logOk = true ∨ (validation_scan df cols tbl).1 = [])
    (hne : validate_dataframe df cols tbl ≠ []) :
    (storeOk = true ∧
      process_and_insert df cols tbl store logOk storeOk =
        (store ++ (validate_dataframe df cols tbl).map Prod.snd,
         PIResult.ok (InsertOutcome.inserted (validate_dataframe df cols tbl).length)))
    ∨ (storeOk = false ∧
      process_and_insert df cols tbl store logOk storeOk =
        (store, PIResult.error PipelineError.storageFailure)) := by
  have hcond : ¬ (¬ (validation_scan df cols tbl).1.isEmpty = true ∧ ¬ logOk = true) := by
    rcases hlog with h | h
    · exact fun hc => hc.2 h
    · exact fun hc => hc.1 (by simp [h])
  have hvne : (validate_dataframe df cols tbl).isEmpty = false := by
    simp [List.isEmpty_iff, hne]
  cases storeOk with
  | true =>
    left
    refine ⟨rfl, ?_⟩
    simp only [process_and_insert]
    rw [if_neg hcond]
    simp [hvne]
  | false =>
    right
    refine ⟨rfl, ?_⟩
    simp only [process_and_insert]
    rw [if_neg hcond]
    simp [hvne]

/-- Witness for C6 at the concrete batch, in both transaction outcomes. -/
theorem insert_batch_atomic_witness :
    ((true : Bool) = true ∧
      process_and_insert badBatch ["name"] "hired_employees" [] true true =
        ([] ++ (validate_dataframe badBatch ["name"] "hired_employees").map Prod.snd,
         PIResult.ok (InsertOutcome.inserted
           (validate_dataframe badBatch ["name"] "hired_employees").length))
      ∨ ((true : Bool) = false ∧
        process_and_insert badBatch ["name"] "hired_employees" [] true true =
          ([], PIResult.error PipelineError.storageFailure)))
    ∧ ((false : Bool) = true ∧
      process_and_insert badBatch ["name"] "hired_employees" [] true false =
        ([] ++ (validate_dataframe badBatch ["name"] "hired_employees").map Prod.snd,
         PIResult.ok (InsertOutcome.inserted
           (validate_dataframe badBatch ["name"] "hired_employees").length))
      ∨ ((false : Bool) = false ∧
        process_and_insert badBatch ["name"] "hired_employees" [] true false =
          ([], PIResult.error PipelineError.storageFailure))) :=
  ⟨insert_batch_atomic badBatch ["name"] "hired_employees" [] true true
      (Or.inl rfl) (by decide),
   insert_batch_atomic badBatch ["name"] "hired_employees" [] true false
      (Or.inl rfl) (by decide)⟩

/-- C7: with an empty accepted batch, `process_and_insert` performs no store
write (for either behaviour of the storage transaction), leaves the store
untouched, and reports the no-valid-records outcome. -/
theorem insert_empty_batch_noop (df : List (Nat × Row)) (cols : List String)
    (tbl : String) (store : List Row) (logOk storeOk : Bool)
    (hempty : validate_dataframe df cols tbl = [])
    (hlog : logOk = true ∨ (validation_scan df cols tbl).1 = []) :
    process_and_insert df cols tbl store logOk storeOk
      = (store, PIResult.ok InsertOutcome.noValidRecords) := by
  have hcond : ¬ (¬ (validation_scan df cols tbl).1.isEmpty = true ∧ ¬ logOk = true) := by
    rcases hlog with h | h
    · exact fun hc => hc.2 h
    · exact fun hc => hc.1 (by simp [h])
  simp only [process_and_insert]
  rw [if_neg hcond]
  simp [hempty]

/-- C4: for a record whose `datetime` column holds a non-null string, an
`InvalidTimestamp` defect is produced exactly when the string fails
ISO-8601 parsing after the trailing-`Z`-as-`+00:00` rewriting (every
occurrence of `Z` is rewritten; a valid ISO string contains at most the
trailing one); concretely, `"2021-07-15T10:00:00Z"` parses and yields no
defect, while `"2021-13-40"` fails and yields the defect. -/
theorem validate_row_datetime_iso :
    (∀ (row : Row) (cols : List String) (s : String),
        "datetime" ∈ cols → Row.get row "datetime" = some (Value.str s) →
        (Defect.invalidTimestamp ∈ validate_row row cols ↔
          fromisoformat (replaceZ s) = none))
    ∧ validate_row [("datetime", some (Value.str "2021-07-15T10:00:00Z"))]
        ["datetime"] = []
    ∧ validate_row [("datetime", some (Value.str "2021-13-40"))]
        ["datetime"] = [Defect.invalidTimestamp] := by
  refine ⟨fun row cols s hmem hval => ⟨fun h => ?_, fun h =>
    validate_row_mem_invalidTimestamp row cols s hmem hval h⟩, by decide, by decide⟩
  rcases invalidTimestamp_mem_elim row cols h with ⟨s', hval', hfail'⟩
  rw [hval] at hval'
  cases hval'
  exact hfail'

/-- Witness for C4 at a concrete row with an unparseable timestamp. -/
theorem validate_row_datetime_iso_witness :
    Defect.invalidTimestamp ∈
        validate_row [("datetime", some (Value.str "2021-13-40"))] ["datetime"] ↔
      fromisoformat (replaceZ "2021-13-40") = none :=
  validate_row_datetime_iso.1 [("datetime", some (Value.str "2021-13-40"))]
    ["datetime"] "2021-13-40" (by decide) (by decide)

/-- C9: a whitespace-only, non-empty string in the `datetime` column fires
both checks: the record gets a `MissingOrEmpty` defect for `datetime` and
an `InvalidTimestamp` defect, and on a single-column record the defect list
is exactly those two entries. -/
theorem validate_row_blank_datetime (s : String) (hblank : stripIsEmpty s = true)
    (_hne : s ≠ "") :
    validate_row [("datetime", some (Value.str s))] ["datetime"]
      = [Defect.missingOrEmpty "datetime", Defect.invalidTimestamp]
    ∧ ∀ (row : Row) (cols : List String),
        "datetime" ∈ cols → Row.get row "datetime" = some (Value.str s) →
        Defect.missingOrEmpty "datetime" ∈ validate_row row cols
        ∧ Defect.invalidTimestamp ∈ validate_row row cols := by
  have hspace : s.data.all isPySpace = true := by simpa [stripIsEmpty] using hblank
  have hnoZ : ∀ c ∈ s.data, c ≠ 'Z' := fun c hc =>
    (isPySpace_not_digit_ne_Z c ((List.all_eq_true.mp hspace) c hc)).2
  have hfail : fromisoformat (replaceZ s) = none := by
    rw [replaceZ_of_no_Z s hnoZ]
    exact fromisoformat_all_space s hspace
  refine ⟨?_, fun row cols hmem hval =>
    ⟨validate_row_mem_missingOrEmpty row cols "datetime" hmem (by
        simp [isMissingOrBlank, hval, hblank]),
     validate_row_mem_invalidTimestamp row cols s hmem hval hfail⟩⟩
  have hget : Row.get [("datetime", some (Value.str s))] "datetime"
      = some (Value.str s) := by
    simp [Row.get, List.lookup_cons]
  unfold validate_row
  rw [hget]
  simp [validate_row, isMissingOrBlank, hblank, hfail, Option.isNone_iff_eq_none]

/-- Witness for C9 at a one-space datetime value. -/
theorem validate_row_blank_datetime_witness :
    validate_row [("datetime", some (Value.str " "))] ["datetime"]
      = [Defect.missingOrEmpty "datetime", Defect.invalidTimestamp]
    ∧ ∀ (row : Row) (cols : List String),
        "datetime" ∈ cols → Row.get row "datetime" = some (Value.str " ") →
        Defect.missingOrEmpty "datetime" ∈ validate_row row cols
        ∧ Defect.invalidTimestamp ∈ validate_row row cols :=
  validate_row_blank_datetime " " (by decide) (by decide)

/-- Witness for C7: an all-defective batch with the storage transaction set
to fail — storage is never reached. -/
theorem insert_empty_batch_noop_witness :
    validate_dataframe [(0, [("name", (none : Option Value))])] ["name"] "jobs" = []
    ∧ process_and_insert [(0, [("name", (none : Option Value))])] ["name"] "jobs"
        [] true false
      = ([], PIResult.ok InsertOutcome.noValidRecords) :=
  ⟨by decide,
   insert_empty_batch_noop [(0, [("name", none)])] ["name"] "jobs" [] true false
     (by decide) (Or.inl rfl)⟩

/-- C8: with no `backup.files` pointer for the table, or a pointer to a file
that is not on disk, `restore_table` reports `noBackupFound` and leaves the
whole world untouched — no table creation and no store write. -/
theorem restore_table_no_backup (table : String) (w : World)
    (h : List.lookup table w.config.backupFiles = none ∨
      ∃ p, List.lookup table w.config.backupFiles = some p ∧
        List.lookup p w.disk = none) :
    restore_table table w = (RestoreOutcome.noBackupFound, w) := by
  rcases h with h | ⟨p, hp, hd⟩
  · unfold restore_table
    rw [h]
  · simp only [restore_table, hp, hd]

/-- Witness for C8: a world with no backup pointers at all. -/
theorem restore_table_no_backup_witness :
    restore_table "jobs" emptyWorld = (RestoreOutcome.noBackupFound, emptyWorld) :=
  restore_table_no_backup "jobs" emptyWorld (Or.inl rfl)

/-- One row through cleaning (at backup time) and textification (append
into the text-typed restored table) renders, cell by cell, as the original
row rendered as strings with null text cells becoming the empty string. -/
theorem clean_textify_row (cols : List (String × Dtype)) (r : List (Option Value))
    (hlen : r.length = cols.length)
    (htyped : ((cols.zip r).all fun p => cellTypedB p.1.2 p.2) = true) :
    (cols.zip r).map (fun p => (textifyCell (cleanCell p.1.2 p.1.1 p.2)).map valueStr)
      = r.map fun c => some ((c.map valueStr).getD "") := by
  induction cols generalizing r with
  | nil =>
    cases r with
    | nil => rfl
    | cons c rt => cases hlen
  | cons hd ct ih =>
    cases r with
    | nil => cases hlen
    | cons c rt =>
      obtain ⟨n, d⟩ := hd
      have hlen' : rt.length = ct.length := by simpa using hlen
      have hsplit : cellTypedB d c = true ∧
          ((ct.zip rt).all fun p => cellTypedB p.1.2 p.2) = true := by
        simpa [List.all_cons, Bool.and_eq_true] using htyped
      have hhead : cellTypedB d c = true := hsplit.1
      have htail : ((ct.zip rt).all fun p => cellTypedB p.1.2 p.2) = true := hsplit.2
      have hrec := ih rt hlen' htail
      simp only [List.zip_cons_cons, List.map_cons, hrec]
      refine congrArg (fun x => x :: _) ?_
      by_cases hcl : d = Dtype.object ∨ n = "datetime"
      · cases c with
        | none => simp [cleanCell, hcl, textifyCell, valueStr]
        | some v => simp [cleanCell, hcl, textifyCell, valueStr]
      · cases d with
        | int64 =>
          cases c with
          | none => cases hhead
          | some v =>
            cases v with
            | int z =>
              have hn : ¬ n = "datetime" := fun he => hcl (Or.inr he)
              simp [cleanCell, hcl, hn, textifyCell, valueStr]
            | str s => cases hhead
        | object => exact absurd (Or.inl rfl) hcl
        | text => cases hhead

/-- C2: snapshot then restore into an initially-empty destination.  After
`backup_table` of a well-typed source table and `restore_table` into a
store holding no tables, the restored table's row set — rendered as strings
column-for-column — equals the source contents at snapshot time, except
that every originally-null text value becomes the empty string (an empty
source table restores to the empty row set via the `emptyBackup`
outcome). -/
theorem backup_restore_round_trip (w : World) (table : String) (t : DbTable)
    (hdb : List.lookup table w.db = some t)
    (hwt : wellTypedB t = true)
    (hcols : List.lookup table w.config.csvColumns = some (t.cols.map Prod.fst))
    (hne : t.cols ≠ []) (w2 : World)
    (hb : backup_table table w = some w2) :
    storedStrings
        (List.lookup table (restore_table table { w2 with db := [] }).2.db)
      = t.rows.map fun r => r.map fun c => some ((c.map valueStr).getD "") := by
  unfold backup_table at hb
  rw [hdb] at hb
  have hw2 := Option.some.inj hb
  subst hw2
  by_cases hrows : t.rows = []
  · have hres : restore_table table
        { config := updateBackupPointer table
            (w.config.backupDir ++ "/" ++ table ++ ".avro") w.config,
          disk := setAssoc (w.config.backupDir ++ "/" ++ table ++ ".avro")
            { schema := generate_avro_schema (cleanTable t),
              records := (cleanTable t).rows } w.disk,
          db := [] }
        = (RestoreOutcome.emptyBackup,
           { config := updateBackupPointer table
               (w.config.backupDir ++ "/" ++ table ++ ".avro") w.config,
             disk := setAssoc (w.config.backupDir ++ "/" ++ table ++ ".avro")
               { schema := generate_avro_schema (cleanTable t),
                 records := (cleanTable t).rows } w.disk,
             db := [] }) := by
      simp [restore_table, updateBackupPointer, lookup_setAssoc_self,
        cleanTable, hrows]
    rw [hres]
    simp [storedStrings, hrows]
  · have hmapne : ((cleanTable t).rows).isEmpty = false := by
      simp [cleanTable, List.isEmpty_iff, hrows]
    have hcolsne : ((t.cols.map Prod.fst).isEmpty) = false := by
      simp [List.isEmpty_iff, hne]
    simp only [restore_table, updateBackupPointer, lookup_setAssoc_self,
      hmapne, Bool.false_eq_true, if_false, List.lookup_nil, hcols,
      hcolsne]
    simp only [storedStrings, lookup_setAssoc_self, cleanTable]
    rw [List.map_map, List.map_map]
    refine List.map_congr_left fun r hr => ?_
    have hall := (List.all_eq_true.mp hwt) r hr
    have hsplit : (r.length == t.cols.length) = true ∧
        ((t.cols.zip r).all fun p => cellTypedB p.1.2 p.2) = true := by
      simpa [Bool.and_eq_true] using hall
    have hlen : r.length = t.cols.length := by simpa using hsplit.1
    simp only [Function.comp_apply, List.map_map]
    exact clean_textify_row t.cols r hlen hsplit.2

/-- Witness for C2: the concrete employees table through the round trip. -/
theorem backup_restore_round_trip_witness :
    storedStrings
        (List.lookup "hired_employees"
          (restore_table "hired_employees"
            { (backup_table "hired_employees" sampleWorld).getD emptyWorld with
              db := [] }).2.db)
      = sampleTable.rows.map fun r => r.map fun c => some ((c.map valueStr).getD "") :=
  backup_restore_round_trip sampleWorld "hired_employees" sampleTable
    (by decide) (by decide) (by decide) (by decide)
    ((backup_table "hired_employees" sampleWorld).getD emptyWorld) (by decide)

/-- C10: `update_backup_config` only touches `backup.files[table_name]`:
every other top-level key of the document, every other key of the `backup`
map, and every other table's pointer inside `backup.files` read back
exactly as before the call, while the updated pointer reads back as the new
path. -/
theorem update_backup_config_frame (tn bf : String)
    (config config' : List (String × Yaml))
    (h : Conf.update_backup_config tn bf config = some config') :
    (∀ k, k ≠ "backup" → List.lookup k config' = List.lookup k config)
    ∧ (∀ k, k ≠ "files" →
        Conf.lookup2 config' "backup" k = Conf.lookup2 config "backup" k)
    ∧ (∀ tbl, tbl ≠ tn →
        Conf.lookup3 config' "backup" "files" tbl =
          Conf.lookup3 config "backup" "files" tbl)
    ∧ Conf.lookup3 config' "backup" "files" tn = some (Yaml.scalar bf) := by
  unfold Conf.update_backup_config at h
  cases hB : List.lookup "backup" config with
  | none =>
    rw [hB] at h
    simp only [Option.some_bind] at h
    have hc : setAssoc "backup"
        (Yaml.map (setAssoc "files"
          (Yaml.map (setAssoc tn (Yaml.scalar bf) [])) [])) config = config' :=
      Option.some.inj h
    subst hc
    refine ⟨fun k hk => lookup_setAssoc_ne _ _ _ _ hk, ?_, ?_, ?_⟩
    · intro k hk
      have h1 := lookup_setAssoc_ne "files" k
        (Yaml.map (setAssoc tn (Yaml.scalar bf) [])) ([] : List (String × Yaml)) hk
      simp [Conf.lookup2, Conf.subMap, lookup_setAssoc_self, hB, h1]
    · intro tbl htbl
      have h1 := lookup_setAssoc_ne tn tbl (Yaml.scalar bf)
        ([] : List (String × Yaml)) htbl
      simp [Conf.lookup3, Conf.subMap, lookup_setAssoc_self, hB, h1]
    · simp [Conf.lookup3, Conf.subMap, lookup_setAssoc_self, setAssoc]
  | some y =>
    cases y with
    | scalar s => rw [hB] at h; cases h
    | seq l => rw [hB] at h; cases h
    | map m =>
      rw [hB] at h
      simp only [Option.some_bind] at h
      cases hF : List.lookup "files" m with
      | none =>
        rw [hF] at h
        simp only [Option.some_bind] at h
        have hc : setAssoc "backup"
            (Yaml.map (setAssoc "files"
              (Yaml.map (setAssoc tn (Yaml.scalar bf) [])) m)) config = config' :=
          Option.some.inj h
        subst hc
        refine ⟨fun k hk => lookup_setAssoc_ne _ _ _ _ hk, ?_, ?_, ?_⟩
        · intro k hk
          simp [Conf.lookup2, Conf.subMap, lookup_setAssoc_self, hB,
            lookup_setAssoc_ne _ _ _ _ hk]
        · intro tbl htbl
          have h1 := lookup_setAssoc_ne tn tbl (Yaml.scalar bf)
            ([] : List (String × Yaml)) htbl
          simp [Conf.lookup3, Conf.subMap, lookup_setAssoc_self, hB, hF, h1]
        · simp [Conf.lookup3, Conf.subMap, lookup_setAssoc_self, setAssoc]
      | some y2 =>
        cases y2 with
        | scalar s => rw [hF] at h; cases h
        | seq l => rw [hF] at h; cases h
        | map f =>
          rw [hF] at h
          simp only [Option.some_bind] at h
          have hc : setAssoc "backup"
              (Yaml.map (setAssoc "files"
                (Yaml.map (setAssoc tn (Yaml.scalar bf) f)) m)) config = config' :=
            Option.some.inj h
          subst hc
          refine ⟨fun k hk => lookup_setAssoc_ne _ _ _ _ hk, ?_, ?_, ?_⟩
          · intro k hk
            simp [Conf.lookup2, Conf.subMap, lookup_setAssoc_self, hB,
              lookup_setAssoc_ne _ _ _ _ hk]
          · intro tbl htbl
            simp [Conf.lookup3, Conf.subMap, lookup_setAssoc_self, hB, hF,
              lookup_setAssoc_ne _ _ _ _ htbl]
          · simp [Conf.lookup3, Conf.subMap, lookup_setAssoc_self]

/-- Witness for C10: updating the `jobs` pointer of the sample document. -/
theorem update_backup_config_frame_witness :
    (∀ k, k ≠ "backup" →
        List.lookup k ((Conf.update_backup_config "jobs"
          "data/backup/jobs.avro" sampleYaml).getD []) = List.lookup k sampleYaml)
    ∧ (∀ k, k ≠ "files" →
        Conf.lookup2 ((Conf.update_backup_config "jobs"
            "data/backup/jobs.avro" sampleYaml).getD []) "backup" k =
          Conf.lookup2 sampleYaml "backup" k)
    ∧ (∀ tbl, tbl ≠ "jobs" →
        Conf.lookup3 ((Conf.update_backup_config "jobs"
            "data/backup/jobs.avro" sampleYaml).getD []) "backup" "files" tbl =
          Conf.lookup3 sampleYaml "backup" "files" tbl)
    ∧ Conf.lookup3 ((Conf.update_backup_config "jobs"
          "data/backup/jobs.avro" sampleYaml).getD []) "backup" "files" "jobs" =
        some (Yaml.scalar "data/backup/jobs.avro") :=
  update_backup_config_frame "jobs" "data/backup/jobs.avro" sampleYaml
    ((Conf.update_backup_config "jobs" "data/backup/jobs.avro" sampleYaml).getD [])
    rfl

end GData
